import Mathlib

/-!
Shallow embedding of the OCR-View plate-extraction core (src/script.js).

The embedding covers:
* the OCR-confusion table `CONFUSION_MAP` and `generateVariants`
  (script.js lines 881-902), including the 32-bit semantics of the
  JavaScript shift `1 << n` used for the combination cap;
* the anchored plate grammar `KA_VEHICLE_PATTERN` and the token-shape
  regexes used by the reconstructor, as decidable Boolean matchers;
* `tryPlateMatchWithVariants` and `findKAVehicleInTokens`
  (script.js lines 903-998);
* the tokenization portion of `processText` (script.js lines 1001-1010);
* the compression controller `preprocessForOCR` (script.js lines 657-767),
  with the host JPEG encoder abstracted as a size function and JavaScript
  numbers modelled as exact rationals;
* the pixel-operation portion of `renderToCanvas` (script.js lines 591-650),
  with the host canvas `drawImage` abstracted as a function parameter.

JavaScript strings are modelled as `String`, arrays as `List`, and the
early-return control flow of the scanner as `Option`-valued branch
functions combined left to right.
-/

set_option maxRecDepth 4000

namespace OCRView

/-- Embeds `CONFUSION_MAP` (script.js line 881): the fixed bidirectional
OCR-confusion table; `none` models the absence of a key. -/
def CONFUSION_MAP : Char → Option Char
  | 'O' => some '0'
  | '0' => some 'O'
  | 'I' => some '1'
  | '1' => some 'I'
  | 'Z' => some '2'
  | '2' => some 'Z'
  | 'S' => some '5'
  | '5' => some 'S'
  | 'B' => some '8'
  | '8' => some 'B'
  | _ => none

/-- The substitution `arr[idx] = CONFUSION_MAP[arr[idx]]` made total:
at every position the loop touches, the table entry is defined, so the
`getD` default is never used there. -/
def swapChar (c : Char) : Char := (CONFUSION_MAP c).getD c

/-- Positions of a token's characters that appear in the confusion table
(the `indices` array of `generateVariants`, script.js lines 884-886). -/
def confusablePositions (chars : List Char) : List Nat :=
  (List.range chars.length).filter (fun i => (CONFUSION_MAP (chars.getD i ' ')).isSome)

/-- The JavaScript 32-bit shift `1 << k`: the shift count is taken mod 32
and the result is a signed 32-bit integer, so `1 << 31` is negative. -/
def jsShl1 (k : Nat) : Int :=
  if 2 ^ (k % 32) < 2 ^ 31 then ((2 ^ (k % 32) : Nat) : Int)
  else ((2 ^ (k % 32) : Nat) : Int) - 2 ^ 32

/-- One toggled combination: for each bit `b` set in `mask`, substitute the
character at position `indices[b]` (the inner loop of `generateVariants`,
script.js lines 892-898).  The bit test `mask & (1 << b)` uses the shift
count mod 32; the masks enumerated are below `2 ^ 30`, so bit 31 never
fires, exactly as in the source. -/
def maskVariant (chars : List Char) (indices : List Nat) (mask : Nat) : List Char :=
  indices.enum.foldl
    (fun arr p =>
      if mask.testBit (p.1 % 32) then arr.set p.2 (swapChar (arr.getD p.2 ' ')) else arr)
    chars

/-- Insertion into the `variants` set, guarded by `variants.size < limit`
(the loop condition of script.js line 891): a JavaScript `Set` keeps
insertion order and drops duplicates, modelled by an append-with-dedup. -/
def addVariant (limit : Nat) (acc : List String) (v : String) : List String :=
  if limit ≤ acc.length then acc
  else if v ∈ acc then acc
  else acc ++ [v]

/-- Embeds `generateVariants(token, limit)` (script.js lines 883-902). -/
def generateVariants (token : String) (limit : Nat) : List String :=
  let chars := token.data
  let indices := confusablePositions chars
  if indices.length = 0 then [token]
  else
    let maxComb : Int := min (jsShl1 indices.length) (jsShl1 10)
    (List.range maxComb.toNat).foldl
      (fun acc mask => addVariant limit acc (String.mk (maskVariant chars indices mask))) []

/-- Tail of the plate grammar after the district prefix:
`[A-Z]{1,2}\d{4}` anchored, i.e. one or two letters then four digits. -/
def serialTail : List Char → Bool
  | [l1, a, b, c, d] =>
    l1.isUpper && a.isDigit && b.isDigit && c.isDigit && d.isDigit
  | [l1, l2, a, b, c, d] =>
    l1.isUpper && l2.isUpper && a.isDigit && b.isDigit && c.isDigit && d.isDigit
  | _ => false

/-- Embeds `KA_VEHICLE_PATTERN = /^KA\d{2}[A-Z]{1,2}\d{4}$/`
(script.js line 520) as a decidable matcher. -/
def kaVehiclePattern (s : String) : Bool :=
  match s.data with
  | c1 :: c2 :: d1 :: d2 :: rest =>
    c1 == 'K' && c2 == 'A' && d1.isDigit && d2.isDigit && serialTail rest
  | _ => false

/-- The shape test `/^KA\d{2}$/` (district prefix token). -/
def reDistrict (s : String) : Bool :=
  match s.data with
  | [c1, c2, d1, d2] => c1 == 'K' && c2 == 'A' && d1.isDigit && d2.isDigit
  | _ => false

/-- The shape test `/^[A-Z]{1,2}\d{4}$/` (series + number token). -/
def reSerialNum (s : String) : Bool := serialTail s.data

/-- The shape test `/^[A-Z]{1,2}$/` (bare series letters). -/
def reLetters (s : String) : Bool :=
  match s.data with
  | [l1] => l1.isUpper
  | [l1, l2] => l1.isUpper && l2.isUpper
  | _ => false

/-- The shape test `/^\d{2}$/`. -/
def reDigits2 (s : String) : Bool :=
  match s.data with
  | [a, b] => a.isDigit && b.isDigit
  | _ => false

/-- The shape test `/^\d{4}$/`. -/
def reDigits4 (s : String) : Bool :=
  match s.data with
  | [a, b, c, d] => a.isDigit && b.isDigit && c.isDigit && d.isDigit
  | _ => false

/-- The shape test `/^KA\d{2}[A-Z]{1,2}$/` (district + letters, digits missing). -/
def reDistrictLetters (s : String) : Bool :=
  match s.data with
  | [c1, c2, d1, d2, l1] =>
    c1 == 'K' && c2 == 'A' && d1.isDigit && d2.isDigit && l1.isUpper
  | [c1, c2, d1, d2, l1, l2] =>
    c1 == 'K' && c2 == 'A' && d1.isDigit && d2.isDigit && l1.isUpper && l2.isUpper
  | _ => false

/-- Embeds `tryPlateMatchWithVariants` (script.js lines 903-907). -/
def tryPlateMatchWithVariants (candidate : String) : Bool :=
  kaVehiclePattern candidate ||
    (generateVariants candidate 20).any (fun v => kaVehiclePattern v)

/-- The idiom `generateVariants(c, limit).find(v => KA_VEHICLE_PATTERN.test(v))`
used by every reconstruction branch. -/
def variantPlate (candidate : String) (limit : Nat) : Option String :=
  (generateVariants candidate limit).find? (fun v => kaVehiclePattern v)

/-- The result object `{ plate, indices }` returned by `findKAVehicleInTokens`. -/
structure PlateMatch where
  plate : String
  indices : List Nat
deriving DecidableEq

/-- JavaScript's early `return`: the first branch that produces a value wins. -/
def firstSome (a b : Option PlateMatch) : Option PlateMatch :=
  match a with
  | some m => some m
  | none => b

/-- The inclusive index range `lo .. hi` of the look-ahead loops
(`for (let j = lo; j <= hi; j++)`); empty when `hi < lo`. -/
def jRange (lo hi : Nat) : List Nat := List.range' lo (hi + 1 - lo)

/-- Direct-token branch of the scanner (script.js lines 915-920): a token
whose variant set already contains a grammar-satisfying string is accepted
immediately, preferring that variant over the raw token. -/
def checkDirect (tokens : List String) (i : Nat) : Option PlateMatch :=
  let t := tokens.getD i ""
  if tryPlateMatchWithVariants t then
    some ⟨(variantPlate t 20).getD t, [i]⟩
  else none

/-- District-prefix branch (script.js lines 923-938): token `KA##`, then a
look-ahead window of up to 4 tokens for the series and number. -/
def checkDistrict (tokens : List String) (i : Nat) : Option PlateMatch :=
  let t := tokens.getD i ""
  if reDistrict t then
    (jRange (i + 1) (min (i + 4) (tokens.length - 1))).findSome? (fun j =>
      let tj := tokens.getD j ""
      firstSome
        (if reSerialNum tj ∨ tryPlateMatchWithVariants (t ++ tj) then
          (variantPlate (t ++ tj) 30).map (fun ok => ⟨ok, [i, j]⟩)
        else none)
        (if reLetters tj ∧ j + 1 ≤ min (i + 4) (tokens.length - 1) ∧
            reDigits4 (tokens.getD (j + 1) "") then
          (variantPlate (t ++ tj ++ tokens.getD (j + 1) "") 30).map
            (fun ok => ⟨ok, [i, j, j + 1]⟩)
        else none))
  else none

/-- Bare-`KA` branch (script.js lines 941-958): literal token `KA` followed
by a two-digit token completing the district, then an extended window. -/
def checkKAFollowed (tokens : List String) (i : Nat) : Option PlateMatch :=
  let t := tokens.getD i ""
  if t = "KA" then
    if i + 1 < tokens.length ∧ reDigits2 (tokens.getD (i + 1) "") then
      let district := "KA" ++ tokens.getD (i + 1) ""
      (jRange (i + 2) (min (i + 5) (tokens.length - 1))).findSome? (fun j =>
        let tj := tokens.getD j ""
        firstSome
          (if reSerialNum tj ∨ tryPlateMatchWithVariants (district ++ tj) then
            (variantPlate (district ++ tj) 30).map (fun ok => ⟨ok, [i, i + 1, j]⟩)
          else none)
          (if reLetters tj ∧ j + 1 ≤ min (i + 5) (tokens.length - 1) ∧
              reDigits4 (tokens.getD (j + 1) "") then
            (variantPlate (district ++ tj ++ tokens.getD (j + 1) "") 30).map
              (fun ok => ⟨ok, [i, i + 1, j, j + 1]⟩)
          else none))
    else none
  else none

/-- District-plus-letters branch (script.js lines 961-967): token `KA##L(L)`
followed by a four-digit token. -/
def checkDistrictLetters (tokens : List String) (i : Nat) : Option PlateMatch :=
  let t := tokens.getD i ""
  if reDistrictLetters t ∧ i + 1 < tokens.length ∧ reDigits4 (tokens.getD (i + 1) "") then
    (variantPlate (t ++ tokens.getD (i + 1) "") 30).map (fun ok => ⟨ok, [i, i + 1]⟩)
  else none

/-- Series-and-number branch (script.js lines 970-981): token `L(L)####`
with the district assembled from the one or two preceding tokens. -/
def checkSerialPrev (tokens : List String) (i : Nat) : Option PlateMatch :=
  let t := tokens.getD i ""
  if reSerialNum t then
    firstSome
      (if 1 ≤ i ∧ reDistrict (tokens.getD (i - 1) "") then
        (variantPlate (tokens.getD (i - 1) "" ++ t) 30).map (fun ok => ⟨ok, [i - 1, i]⟩)
      else none)
      (if 2 ≤ i ∧ tokens.getD (i - 2) "" = "KA" ∧ reDigits2 (tokens.getD (i - 1) "") then
        (variantPlate (tokens.getD (i - 2) "" ++ tokens.getD (i - 1) "" ++ t) 30).map
          (fun ok => ⟨ok, [i - 2, i - 1, i]⟩)
      else none)
  else none

/-- Four-digit branch (script.js lines 984-995): bare number token with the
district and letters assembled from the preceding tokens. -/
def checkDigits4Prev (tokens : List String) (i : Nat) : Option PlateMatch :=
  let t := tokens.getD i ""
  if reDigits4 t then
    firstSome
      (if 1 ≤ i ∧ reLetters (tokens.getD (i - 1) "") ∧ 2 ≤ i ∧
          reDistrict (tokens.getD (i - 2) "") then
        (variantPlate (tokens.getD (i - 2) "" ++ tokens.getD (i - 1) "" ++ t) 30).map
          (fun ok => ⟨ok, [i - 2, i - 1, i]⟩)
      else none)
      (if 3 ≤ i ∧ tokens.getD (i - 3) "" = "KA" ∧ reDigits2 (tokens.getD (i - 2) "") ∧
          reLetters (tokens.getD (i - 1) "") then
        (variantPlate
            (tokens.getD (i - 3) "" ++ tokens.getD (i - 2) "" ++ tokens.getD (i - 1) "" ++ t)
            30).map
          (fun ok => ⟨ok, [i - 3, i - 2, i - 1, i]⟩)
      else none)
  else none

/-- The loop body of `findKAVehicleInTokens` for one index `i`: the six
branches in source order, first success returned. -/
def checkIndex (tokens : List String) (i : Nat) : Option PlateMatch :=
  firstSome (checkDirect tokens i)
    (firstSome (checkDistrict tokens i)
      (firstSome (checkKAFollowed tokens i)
        (firstSome (checkDistrictLetters tokens i)
          (firstSome (checkSerialPrev tokens i) (checkDigits4Prev tokens i)))))

/-- Embeds `findKAVehicleInTokens` (script.js lines 910-998): a single
left-to-right scan over the token sequence, returning the first match. -/
def findKAVehicleInTokens (tokens : List String) : Option PlateMatch :=
  (List.range tokens.length).findSome? (checkIndex tokens)

/-- The character class `[A-Za-z0-9]` of the normalizer's whitelist. -/
def isAlnumChar (c : Char) : Bool := c.isUpper || c.isLower || c.isDigit

/-- The normalized uppercase text `step3` of `processText`
(script.js lines 1004-1006): carriage returns and line feeds become
spaces, every remaining non-alphanumeric character becomes a space, and
the result is uppercased. -/
def processTextStep3 (rawText : String) : List Char :=
  ((((rawText.data.map (fun c => if c = '\r' then ' ' else c)).map
      (fun c => if c = '\n' then ' ' else c)).map
      (fun c => if isAlnumChar c then c else ' ')).map Char.toUpper)

/-- Splitting on every single space, producing empty pieces at runs
(`split(/\s+/)` produces at most a leading empty piece; the combination
with the non-empty filter below is the same function). -/
def splitSpaceRuns (cs : List Char) : List (List Char) :=
  cs.foldr
    (fun c acc =>
      match acc with
      | [] => [[c]]
      | t :: ts => if c = ' ' then [] :: t :: ts else (c :: t) :: ts)
    [[]]

/-- Embeds the tokenization of `processText` (script.js lines 1004-1009):
`step3.split(/\s+/).filter(Boolean)`. -/
def processTextTokens (rawText : String) : List String :=
  ((splitSpaceRuns (processTextStep3 rawText)).filter (fun t => t ≠ [])).map
    (fun t => String.mk t)

/-- Modelled from the spec's wording of the Text Normalizer (one combined
character pass: line breaks to separator, non-alphanumerics to separator,
uppercase; then split on separator runs dropping empties), to be compared
with the source's `processTextTokens`. -/
def normalizerSpec (rawText : String) : List String :=
  let mapped := (((rawText.data.map
      (fun c => if c = '\r' ∨ c = '\n' then ' ' else c)).map
      (fun c => if isAlnumChar c then c else ' ')).map Char.toUpper)
  ((splitSpaceRuns mapped).filter (fun t => t ≠ [])).map (fun t => String.mk t)

/-- The byte budget `MAX_FILE_SIZE = 1024 * 1024` (script.js line 513). -/
def MAX_FILE_SIZE : Nat := 1024 * 1024

/-- The starting cap for the longest side, `MAX_DIMENSION = 1400`
(script.js line 514). -/
def MAX_DIMENSION : ℚ := 1400

/-- The floor for the shortest side, `MIN_DIMENSION = 600`
(script.js line 515). -/
def MIN_DIMENSION : ℚ := 600

/-- JavaScript `Math.round`: round half away from zero is
`Math.round(x) = floor(x + 0.5)` for the nonnegative values used here. -/
def jsRound (x : ℚ) : Int := ⌊x + 1 / 2⌋

/-- A target dimension `Math.max(Math.round(orig * scale), 1)`
(script.js lines 689-690). -/
def targetDim (orig : Nat) (scale : ℚ) : Nat :=
  max (jsRound ((orig : ℚ) * scale)).toNat 1

/-- One encoded candidate of the compression loop: the rendered
dimensions, the JPEG quality handed to the encoder, and the byte size the
encoder reported for them.  The host encoder is abstracted as the size
function `enc`. -/
structure Blob where
  w : Nat
  h : Nat
  q : ℚ
  size : Nat
deriving DecidableEq

/-- The attempt's blob for a given scale and quality (script.js lines
689-693), with the host `canvas.toBlob` encoder abstracted as `enc`. -/
def mkBlob (enc : Nat → Nat → ℚ → Nat) (origW origH : Nat) (scale quality : ℚ) : Blob :=
  ⟨targetDim origW scale, targetDim origH scale, quality,
    enc (targetDim origW scale) (targetDim origH scale) quality⟩

/-- The attempt score (script.js lines 696-699):
`0.4 * sizeScore + 0.4 * dimensionScore + 0.2 * quality`. -/
def attemptScore (origW origH : Nat) (b : Blob) : ℚ :=
  max 0 (1 - (b.size : ℚ) / (MAX_FILE_SIZE : ℚ)) * (2 / 5) +
    min 1 ((b.w * b.h : ℚ) / ((origW * origH : Nat) : ℚ)) * (2 / 5) +
    b.q * (1 / 5)

/-- The running `bestScore`, initially `0` (script.js line 685). -/
def bestScoreOf : Option (Blob × ℚ) → ℚ
  | none => 0
  | some (_, s) => s

/-- The iterative compression loop of `preprocessForOCR` (script.js lines
687-746), written as structural recursion on the remaining attempts
(`maxAttempts - attempt`).  The components of the result are the ordered
attempt trace, the last blob produced (`blob`), and the best-scored blob
with its score (`bestBlob`/`bestScore`). -/
def preLoop (enc : Nat → Nat → ℚ → Nat) (origW origH : Nat) :
    Nat → Nat → ℚ → ℚ → Option (Blob × ℚ) → Option Blob → List Blob →
    List Blob × Option Blob × Option (Blob × ℚ)
  | 0, _, _, _, best, lastBlob, trace => (trace, lastBlob, best)
  | fuel + 1, attempt, scale, quality, best, _, trace =>
    let blob := mkBlob enc origW origH scale quality
    let best' :=
      if bestScoreOf best < attemptScore origW origH blob then
        some (blob, attemptScore origW origH blob)
      else best
    if blob.size ≤ MAX_FILE_SIZE then (trace ++ [blob], some blob, best')
    else if attempt < 3 then
      preLoop enc origW origH fuel (attempt + 1) scale (max (3 / 4) (quality - 1 / 20))
        best' (some blob) (trace ++ [blob])
    else if attempt < 5 then
      preLoop enc origW origH fuel (attempt + 1) scale (max (13 / 20) (quality - 2 / 25))
        best' (some blob) (trace ++ [blob])
    else
      let q1 := max (11 / 20) (quality - 1 / 10)
      if q1 ≤ 13 / 20 then
        if 600 ≤ min (jsRound ((origW : ℚ) * (scale * (19 / 20))))
            (jsRound ((origH : ℚ) * (scale * (19 / 20)))) then
          preLoop enc origW origH fuel (attempt + 1) (scale * (19 / 20)) q1
            best' (some blob) (trace ++ [blob])
        else if 1 / 2 < q1 then
          preLoop enc origW origH fuel (attempt + 1) scale (max (1 / 2) (q1 - 3 / 20))
            best' (some blob) (trace ++ [blob])
        else (trace ++ [blob], some blob, best')
      else
        preLoop enc origW origH fuel (attempt + 1) scale q1 best' (some blob) (trace ++ [blob])

/-- The initial scale (script.js lines 664-669): fit the longest side under
`MAX_DIMENSION` without upscaling, then push the scale back up if that put
the shortest side under `MIN_DIMENSION`. -/
def initialScale (origW origH : Nat) : ℚ :=
  let s := min (min (MAX_DIMENSION / (origW : ℚ)) (MAX_DIMENSION / (origH : ℚ))) 1
  if s * ((min origW origH : Nat) : ℚ) < MIN_DIMENSION then
    MIN_DIMENSION / ((min origW origH : Nat) : ℚ)
  else s

/-- Embeds `preprocessForOCR` (script.js lines 657-767) for a decoded
raster of size `origW × origH`: at most 8 attempts starting from quality
`0.92` and the clamped initial scale. -/
def preprocessForOCR (enc : Nat → Nat → ℚ → Nat) (origW origH : Nat) :
    List Blob × Option Blob × Option (Blob × ℚ) :=
  preLoop enc origW origH 8 0 (initialScale origW origH) (23 / 25) none none []

/-- The returned blob, `bestBlob || blob` (script.js line 749). -/
def finalBlob (r : List Blob × Option Blob × Option (Blob × ℚ)) : Option Blob :=
  match r.2.2 with
  | some (b, _) => some b
  | none => r.2.1

/-- Filter options of `renderToCanvas`
(`{ grayscale, contrast, sharpen, forcePixelContrast }`); a missing
`contrast` is its falsy value `0`. -/
structure RenderOpts where
  grayscale : Bool
  contrast : ℚ
  sharpen : Bool
  forcePixelContrast : Bool
deriving DecidableEq

/-- The CSS filter list built in script.js lines 599-602. -/
def cssFilters (opts : RenderOpts) : List String :=
  (if opts.grayscale then ["grayscale(100%)"] else []) ++
    (if opts.contrast ≠ 0 ∧ 1 / 100 < |opts.contrast - 1| then
      ["contrast(" ++ toString (jsRound (opts.contrast * 100)) ++ "%)"]
    else [])

/-- Rounding of a fractional value stored into a `Uint8ClampedArray`
element: clamp to `[0, 255]` and round half to even. -/
def clampedByte (x : ℚ) : Nat :=
  let c := min 255 (max 0 x)
  let f := ⌊c⌋
  (if c - f < 1 / 2 then f
   else if 1 / 2 < c - f then f + 1
   else if f % 2 = 0 then f else f + 1).toNat

/-- The manual-contrast pixel pass (script.js lines 611-619): each of the
three colour channels is remapped by `(v - 128) * contrast + 128` with
clamping; the alpha channel (every fourth byte) is untouched. -/
def applyContrast (data : List Nat) (contrast : ℚ) : List Nat :=
  data.mapIdx (fun i (v : Nat) =>
    if i % 4 < 3 then clampedByte (((v : ℚ) - 128) * contrast + 128) else v)

/-- The sharpening convolution sum at channel `ch` of pixel `(x, y)`
(script.js lines 628-635) with kernel `[0,-1,0,-1,5,-1,0,-1,0]`; the four
zero-weighted corner terms are dropped and the centre term leads, which
does not change the exact integer sum. -/
def convSum (copy : List Nat) (w x y ch : Nat) : Int :=
  let g := fun yy xx => (copy.getD ((yy * w + xx) * 4 + ch) 0 : Int);
  5 * g y x - g (y - 1) x - g y (x - 1) - g y (x + 1) - g (y + 1) x

/-- The sharpen pass (script.js lines 621-643): interior pixels' colour
channels are replaced by the clamped kernel sum over the snapshot `copy`;
alpha and border pixels keep their snapshot values. -/
def sharpenPass (copy : List Nat) (w h : Nat) : List Nat :=
  copy.mapIdx (fun idx v =>
    let p := idx / 4
    let ch := idx % 4
    let x := p % w
    let y := p / w
    if 1 ≤ x ∧ x + 1 < w ∧ 1 ≤ y ∧ y + 1 < h ∧ ch < 3 then
      (min 255 (max 0 (convSum copy w x y ch))).toNat
    else v)

/-- Embeds `renderToCanvas` (script.js lines 591-650).  The host canvas
draw (`drawImage` under the CSS filter list, then `getImageData`) is
abstracted as the function `hostDraw` from the image, target dimensions
and filter list to the drawn pixel buffer; the pixel-operation fallback
is the source's own arithmetic. -/
def renderToCanvas {Img : Type} (hostDraw : Img → Nat → Nat → List String → List Nat)
    (img : Img) (width height : Nat) (opts : RenderOpts) : List Nat :=
  let drawn := hostDraw img width height (cssFilters opts)
  if opts.sharpen ∨ opts.forcePixelContrast then
    let afterContrast :=
      if opts.forcePixelContrast ∧ opts.contrast ≠ 0 then applyContrast drawn opts.contrast
      else drawn
    if opts.sharpen then sharpenPass afterContrast width height else afterContrast
  else drawn

/-- Whether a string begins with the literal characters `K` then `A`
(a "KA-rooted fragment" of the token stream). -/
def startsWithKA (s : String) : Bool :=
  match s.data with
  | c1 :: c2 :: _ => c1 == 'K' && c2 == 'A'
  | _ => false

/-- The dimension invariant maintained by the compression loop: the
rounded width and height at the current scale are both at least 600. -/
def dimInv (origW origH : Nat) (scale : ℚ) : Prop :=
  600 ≤ jsRound ((origW : ℚ) * scale) ∧ 600 ≤ jsRound ((origH : ℚ) * scale)

/-- A 31-character token of ones: every position is confusable, so the
JavaScript combination cap `1 << 31` overflows to a negative 32-bit value. -/
def ones31 : String := String.mk (List.replicate 31 '1')

/-- A concrete host draw function (uniform grey buffer) used to
instantiate the determinism theorem. -/
def hostDrawConst : Unit → Nat → Nat → List String → List Nat :=
  fun _ w h _ => List.replicate (4 * w * h) 100

/-- The filter profile used by the OCR preprocessing path, with the
pixel-operation fallbacks enabled. -/
def sampleOpts : RenderOpts := ⟨true, 5 / 4, true, true⟩

/-- A constant-size encoder used to instantiate the controller theorems. -/
def encZero : Nat → Nat → ℚ → Nat := fun _ _ _ => 0

theorem processTextTokens_eq_normalizerSpec (s : String) :
    processTextTokens s = normalizerSpec s := by
  have hmap :
      (((s.data.map (fun c => if c = '\r' then ' ' else c)).map
          (fun c => if c = '\n' then ' ' else c)).map
          (fun c => if isAlnumChar c then c else ' ')).map Char.toUpper =
        ((s.data.map (fun c => if c = '\r' ∨ c = '\n' then ' ' else c)).map
          (fun c => if isAlnumChar c then c else ' ')).map Char.toUpper := by
    simp only [List.map_map]
    apply List.map_congr_left
    intro c _
    by_cases h1 : c = '\r'
    · subst h1; rfl
    · by_cases h2 : c = '\n'
      · subst h2; rfl
      · simp [Function.comp, h1, h2]
  unfold processTextTokens normalizerSpec processTextStep3
  rw [hmap]

/-- C7: the Text Normalizer replaces line breaks and every other
non-alphanumeric character by a separator, uppercases, and splits on
separator runs dropping empties (the source's step1-step3 pipeline and
token split coincide with that description), and in particular
`"KA-51  AK\n4247"` normalizes to `["KA", "51", "AK", "4247"]`. -/
theorem normalizer_correct :
    (∀ s : String, processTextTokens s = normalizerSpec s) ∧
      processTextTokens "KA-51  AK\n4247" = ["KA", "51", "AK", "4247"] :=
  ⟨processTextTokens_eq_normalizerSpec, by decide⟩

/-- C1 (counterexample): contrary to the claim, the reconstructor fails on
`["KAO5", "AB1234"]` — the district branch tests the raw token against
`/^KA\d{2}$/`, so the confusable `O` in `"KAO5"` is never corrected. -/
theorem kao5_counterexample :
    findKAVehicleInTokens ["KAO5", "AB1234"] = none := by decide

/-- C1 (amended): `["KAO5", "AB1234"]` yields "not found", because the
district shape test does not consult the confusion table; with the
district read as `"KA05"` the same pair succeeds with plate
`"KA05AB1234"` assembled from token indices 0 and 1. -/
theorem kao5_amended :
    findKAVehicleInTokens ["KAO5", "AB1234"] = none ∧
      findKAVehicleInTokens ["KA05", "AB1234"] = some ⟨"KA05AB1234", [0, 1]⟩ := by
  constructor
  · decide
  · decide

/-- C8: on the fully fragmented token sequence `["KA", "51", "AK", "4247"]`
the reconstructor returns the plate `"KA51AK4247"` assembled from the
source token indices `[0, 1, 2, 3]`. -/
theorem reconstruct_fragmented_plate :
    findKAVehicleInTokens ["KA", "51", "AK", "4247"] =
      some ⟨"KA51AK4247", [0, 1, 2, 3]⟩ := by decide

theorem foldl_const {α β : Type} (l : List β) (a : α) :
    l.foldl (fun x _ => x) a = a := by
  induction l generalizing a with
  | nil => rfl
  | cons b t ih => simp only [List.foldl_cons]; exact ih a

theorem maskVariant_zero (chars : List Char) (indices : List Nat) :
    maskVariant chars indices 0 = chars := by
  unfold maskVariant
  simp only [Nat.zero_testBit, Bool.false_eq_true, if_false]
  exact foldl_const _ _

theorem mem_addVariant (limit : Nat) (acc : List String) (v x : String) (h : x ∈ acc) :
    x ∈ addVariant limit acc v := by
  unfold addVariant
  split
  · exact h
  · split
    · exact h
    · exact List.mem_append_left _ h

theorem mem_foldl_addVariant (limit : Nat) (f : Nat → String) (l : List Nat)
    (acc : List String) (x : String) (h : x ∈ acc) :
    x ∈ l.foldl (fun acc m => addVariant limit acc (f m)) acc := by
  induction l generalizing acc with
  | nil => exact h
  | cons b t ih => exact ih _ (mem_addVariant _ _ _ _ h)

theorem addVariant_length_le (limit : Nat) (acc : List String) (v : String) :
    (addVariant limit acc v).length ≤ acc.length + 1 := by
  unfold addVariant
  by_cases h1 : limit ≤ acc.length
  · simp [h1]
  · by_cases h2 : v ∈ acc
    · simp [h1, h2]
    · simp [h1, h2]

theorem addVariant_length_le_limit (limit : Nat) (acc : List String) (v : String)
    (h : acc.length ≤ limit) : (addVariant limit acc v).length ≤ limit := by
  unfold addVariant
  by_cases h1 : limit ≤ acc.length
  · simp [h1, h]
  · by_cases h2 : v ∈ acc
    · simp [h1, h2, h]
    · simp only [h1, h2, if_false, List.length_append, List.length_singleton]
      omega

theorem foldl_addVariant_length_le_limit (limit : Nat) (f : Nat → String) (l : List Nat)
    (acc : List String) (h : acc.length ≤ limit) :
    (l.foldl (fun acc m => addVariant limit acc (f m)) acc).length ≤ limit := by
  induction l generalizing acc with
  | nil => exact h
  | cons b t ih => exact ih _ (addVariant_length_le_limit _ _ _ h)

theorem foldl_addVariant_length_le (limit : Nat) (f : Nat → String) (l : List Nat)
    (acc : List String) :
    (l.foldl (fun acc m => addVariant limit acc (f m)) acc).length ≤
      acc.length + l.length := by
  induction l generalizing acc with
  | nil => simp
  | cons b t ih =>
    have h1 := ih (addVariant limit acc (f b))
    have h2 := addVariant_length_le limit acc (f b)
    simp only [List.foldl_cons, List.length_cons]
    omega

theorem jsShl1_eq_pow (k : Nat) (hk : k ≤ 30) : jsShl1 k = ((2 ^ k : Nat) : Int) := by
  have h1 : k % 32 = k := Nat.mod_eq_of_lt (by omega)
  have h2 : (2 : Nat) ^ k < 2 ^ 31 := Nat.pow_lt_pow_right (by omega) (by omega)
  unfold jsShl1
  rw [h1, if_pos h2]

theorem maxComb_toNat (k : Nat) (hk : k ≤ 30) :
    (min (jsShl1 k) (jsShl1 10)).toNat = min (2 ^ k) (2 ^ 10) := by
  rw [jsShl1_eq_pow k hk, jsShl1_eq_pow 10 (by omega), ← Nat.cast_min,
    Int.toNat_natCast]

theorem mem_generateVariants_self (token : String) (limit : Nat) (hlim : 1 ≤ limit)
    (hk : (confusablePositions token.data).length ≤ 30) :
    token ∈ generateVariants token limit := by
  unfold generateVariants
  by_cases h0 : (confusablePositions token.data).length = 0
  · rw [if_pos h0]
    exact List.mem_singleton.mpr rfl
  · rw [if_neg h0]
    dsimp only
    rw [maxComb_toNat _ hk]
    have hpos : 1 ≤ min (2 ^ (confusablePositions token.data).length) (2 ^ 10) :=
      le_min Nat.one_le_two_pow Nat.one_le_two_pow
    obtain ⟨n, hn⟩ : ∃ n,
        min (2 ^ (confusablePositions token.data).length) (2 ^ 10) = n + 1 :=
      ⟨min (2 ^ (confusablePositions token.data).length) (2 ^ 10) - 1, by omega⟩
    rw [hn, List.range_succ_eq_map, List.foldl_cons, maskVariant_zero]
    have hadd : addVariant limit [] (String.mk token.data) = [String.mk token.data] := by
      unfold addVariant
      rw [if_neg (by simp; omega), if_neg (by simp)]
      simp
    rw [hadd]
    exact mem_foldl_addVariant _ _ _ _ _ (List.mem_singleton.mpr rfl)

theorem generateVariants_length_le (token : String) (limit : Nat) (hlim : 1 ≤ limit)
    (hk : (confusablePositions token.data).length ≤ 10) :
    (generateVariants token limit).length ≤
      min (2 ^ (confusablePositions token.data).length) limit := by
  unfold generateVariants
  by_cases h0 : (confusablePositions token.data).length = 0
  · rw [if_pos h0, h0]
    exact le_min (by simp) (by simpa using hlim)
  · rw [if_neg h0]
    dsimp only
    rw [maxComb_toNat _ (by omega)]
    have hmin : min (2 ^ (confusablePositions token.data).length) (2 ^ 10) =
        2 ^ (confusablePositions token.data).length :=
      Nat.min_eq_left (Nat.pow_le_pow_right (by omega) hk)
    rw [hmin]
    refine le_min ?_ ?_
    · have h1 := foldl_addVariant_length_le limit
        (fun mask => String.mk (maskVariant token.data (confusablePositions token.data) mask))
        (List.range (2 ^ (confusablePositions token.data).length)) []
      simpa using h1
    · exact foldl_addVariant_length_le_limit _ _ _ _ (by simp)

/-- C2 (counterexample): contrary to the claim, the returned variant set
does not always contain the token: for a token with 31 confusable
positions the combination cap `1 << 31` is the negative 32-bit value
`-2^31`, the enumeration loop never runs, and the result is empty. -/
theorem variants_cap_overflow_counterexample :
    1 ≤ 12 ∧ ones31 ∉ generateVariants ones31 12 := by
  constructor
  · decide
  · decide

/-- C2 (amended): for every token with at most 30 confusable positions and
every cap `limit ≥ 1`, `generateVariants token limit` contains the
unmodified token; and if the token has `k ≤ 10` confusable positions, the
result has at most `min (2 ^ k) limit` elements. -/
theorem variants_contain_token_and_bounded (token : String) (limit : Nat)
    (hlim : 1 ≤ limit) (hk30 : (confusablePositions token.data).length ≤ 30) :
    token ∈ generateVariants token limit ∧
      ((confusablePositions token.data).length ≤ 10 →
        (generateVariants token limit).length ≤
          min (2 ^ (confusablePositions token.data).length) limit) :=
  ⟨mem_generateVariants_self token limit hlim hk30,
   fun hk10 => generateVariants_length_le token limit hlim hk10⟩

theorem variants_contain_token_and_bounded_witness :
    (1 ≤ 12 ∧ (confusablePositions "KAO5".data).length ≤ 30) ∧
      ("KAO5" ∈ generateVariants "KAO5" 12 ∧
        ((confusablePositions "KAO5".data).length ≤ 10 →
          (generateVariants "KAO5" 12).length ≤
            min (2 ^ (confusablePositions "KAO5".data).length) 12)) :=
  ⟨⟨by decide, by decide⟩,
   variants_contain_token_and_bounded "KAO5" 12 (by decide) (by decide)⟩

theorem confusablePositions_length_le (cs : List Char) :
    (confusablePositions cs).length ≤ cs.length := by
  unfold confusablePositions
  have h := List.length_filter_le (fun i => (CONFUSION_MAP (cs.getD i ' ')).isSome)
    (List.range cs.length)
  rw [List.length_range] at h
  exact h

theorem serialTail_length {l : List Char} (h : serialTail l = true) : l.length ≤ 6 := by
  unfold serialTail at h
  rcases l with _ | ⟨x1, _ | ⟨x2, _ | ⟨x3, _ | ⟨x4, _ | ⟨x5, _ | ⟨x6, _ | ⟨x7, r⟩⟩⟩⟩⟩⟩⟩ <;>
    simp_all

theorem kaVehiclePattern_startsWithKA {s : String} (h : kaVehiclePattern s = true) :
    startsWithKA s = true := by
  unfold kaVehiclePattern at h
  unfold startsWithKA
  rcases hdata : s.data with _ | ⟨c1, _ | ⟨c2, _ | ⟨c3, _ | ⟨c4, rest⟩⟩⟩⟩ <;>
    rw [hdata] at h <;> simp_all

theorem kaVehiclePattern_length {s : String} (h : kaVehiclePattern s = true) :
    s.data.length ≤ 10 := by
  unfold kaVehiclePattern at h
  rcases hdata : s.data with _ | ⟨c1, _ | ⟨c2, _ | ⟨c3, _ | ⟨c4, rest⟩⟩⟩⟩ <;>
    rw [hdata] at h <;> simp_all
  have := serialTail_length h.2
  omega

theorem reDistrict_startsWithKA {s : String} (h : reDistrict s = true) :
    startsWithKA s = true := by
  unfold reDistrict at h
  unfold startsWithKA
  rcases hdata : s.data with _ | ⟨c1, _ | ⟨c2, _ | ⟨c3, _ | ⟨c4, _ | ⟨c5, rest⟩⟩⟩⟩⟩ <;>
    rw [hdata] at h <;> simp_all

theorem reDistrict_length {s : String} (h : reDistrict s = true) :
    s.data.length ≤ 4 := by
  unfold reDistrict at h
  rcases hdata : s.data with _ | ⟨c1, _ | ⟨c2, _ | ⟨c3, _ | ⟨c4, _ | ⟨c5, rest⟩⟩⟩⟩⟩ <;>
    rw [hdata] at h <;> simp_all

theorem reDistrictLetters_startsWithKA {s : String} (h : reDistrictLetters s = true) :
    startsWithKA s = true := by
  unfold reDistrictLetters at h
  unfold startsWithKA
  rcases hdata : s.data with
      _ | ⟨c1, _ | ⟨c2, _ | ⟨c3, _ | ⟨c4, _ | ⟨c5, _ | ⟨c6, _ | ⟨c7, rest⟩⟩⟩⟩⟩⟩⟩ <;>
    rw [hdata] at h <;> simp_all

theorem reDistrictLetters_length {s : String} (h : reDistrictLetters s = true) :
    s.data.length ≤ 6 := by
  unfold reDistrictLetters at h
  rcases hdata : s.data with
      _ | ⟨c1, _ | ⟨c2, _ | ⟨c3, _ | ⟨c4, _ | ⟨c5, _ | ⟨c6, _ | ⟨c7, rest⟩⟩⟩⟩⟩⟩⟩ <;>
    rw [hdata] at h <;> simp_all

theorem getD_mem {tokens : List String} {i : Nat} (h : i < tokens.length) :
    tokens.getD i "" ∈ tokens := by
  rw [List.getD_eq_getElem _ _ h]
  exact List.getElem_mem h

theorem noka_not_starts {tokens : List String}
    (H : ∀ t ∈ tokens, ∀ v ∈ generateVariants t 20, startsWithKA v = false)
    {t : String} (ht : t ∈ tokens)
    (hk : (confusablePositions t.data).length ≤ 30) : startsWithKA t = false :=
  H t ht t (mem_generateVariants_self t 20 (by omega) hk)

theorem noka_try_false {tokens : List String}
    (H : ∀ t ∈ tokens, ∀ v ∈ generateVariants t 20, startsWithKA v = false)
    {t : String} (ht : t ∈ tokens) : tryPlateMatchWithVariants t = false := by
  unfold tryPlateMatchWithVariants
  by_cases hp : kaVehiclePattern t = true
  · exfalso
    have hlen := kaVehiclePattern_length hp
    have hk : (confusablePositions t.data).length ≤ 30 :=
      le_trans (confusablePositions_length_le _) (by omega)
    have h2 := noka_not_starts H ht hk
    rw [kaVehiclePattern_startsWithKA hp] at h2
    exact absurd h2 (by simp)
  · have hany : (generateVariants t 20).any (fun v => kaVehiclePattern v) = false := by
      rw [List.any_eq_false]
      intro v hv hpv
      have h1 := kaVehiclePattern_startsWithKA hpv
      have h2 := H t ht v hv
      rw [h1] at h2
      exact absurd h2 (by simp)
    have hp' : kaVehiclePattern t = false := by simpa using hp
    rw [hp', hany]
    rfl

theorem noka_reDistrict_false {tokens : List String}
    (H : ∀ t ∈ tokens, ∀ v ∈ generateVariants t 20, startsWithKA v = false)
    {t : String} (ht : t ∈ tokens) : reDistrict t = false := by
  by_cases h : reDistrict t = true
  · exfalso
    have hlen := reDistrict_length h
    have hk : (confusablePositions t.data).length ≤ 30 :=
      le_trans (confusablePositions_length_le _) (by omega)
    have h2 := noka_not_starts H ht hk
    rw [reDistrict_startsWithKA h] at h2
    exact absurd h2 (by simp)
  · simpa using h

theorem noka_reDistrictLetters_false {tokens : List String}
    (H : ∀ t ∈ tokens, ∀ v ∈ generateVariants t 20, startsWithKA v = false)
    {t : String} (ht : t ∈ tokens) : reDistrictLetters t = false := by
  by_cases h : reDistrictLetters t = true
  · exfalso
    have hlen := reDistrictLetters_length h
    have hk : (confusablePositions t.data).length ≤ 30 :=
      le_trans (confusablePositions_length_le _) (by omega)
    have h2 := noka_not_starts H ht hk
    rw [reDistrictLetters_startsWithKA h] at h2
    exact absurd h2 (by simp)
  · simpa using h

theorem noka_ne_KA {tokens : List String}
    (H : ∀ t ∈ tokens, ∀ v ∈ generateVariants t 20, startsWithKA v = false)
    {t : String} (ht : t ∈ tokens) : t ≠ "KA" := by
  intro he
  subst he
  have h2 := noka_not_starts H ht (by decide)
  exact absurd h2 (by decide)

theorem checkDirect_none {tokens : List String} {i : Nat}
    (H : ∀ t ∈ tokens, ∀ v ∈ generateVariants t 20, startsWithKA v = false)
    (hi : i < tokens.length) : checkDirect tokens i = none := by
  unfold checkDirect
  rw [if_neg]
  rw [noka_try_false H (getD_mem hi)]
  simp

theorem checkDistrict_none {tokens : List String} {i : Nat}
    (H : ∀ t ∈ tokens, ∀ v ∈ generateVariants t 20, startsWithKA v = false)
    (hi : i < tokens.length) : checkDistrict tokens i = none := by
  unfold checkDistrict
  rw [if_neg]
  rw [noka_reDistrict_false H (getD_mem hi)]
  simp

theorem checkKAFollowed_none {tokens : List String} {i : Nat}
    (H : ∀ t ∈ tokens, ∀ v ∈ generateVariants t 20, startsWithKA v = false)
    (hi : i < tokens.length) : checkKAFollowed tokens i = none := by
  unfold checkKAFollowed
  rw [if_neg (noka_ne_KA H (getD_mem hi))]

theorem checkDistrictLetters_none {tokens : List String} {i : Nat}
    (H : ∀ t ∈ tokens, ∀ v ∈ generateVariants t 20, startsWithKA v = false)
    (hi : i < tokens.length) : checkDistrictLetters tokens i = none := by
  unfold checkDistrictLetters
  rw [if_neg]
  rintro ⟨hc, _⟩
  rw [noka_reDistrictLetters_false H (getD_mem hi)] at hc
  simp at hc

theorem checkSerialPrev_none {tokens : List String} {i : Nat}
    (H : ∀ t ∈ tokens, ∀ v ∈ generateVariants t 20, startsWithKA v = false)
    (hi : i < tokens.length) : checkSerialPrev tokens i = none := by
  unfold checkSerialPrev
  dsimp only
  have h1 : ¬(1 ≤ i ∧ reDistrict (tokens.getD (i - 1) "") = true) := by
    rintro ⟨hi1, hd⟩
    rw [noka_reDistrict_false H (getD_mem (show i - 1 < tokens.length by omega))] at hd
    simp at hd
  have h2 : ¬(2 ≤ i ∧ tokens.getD (i - 2) "" = "KA" ∧
      reDigits2 (tokens.getD (i - 1) "") = true) := by
    rintro ⟨hi2, hKA, _⟩
    exact noka_ne_KA H (getD_mem (show i - 2 < tokens.length by omega)) hKA
  rw [if_neg h1, if_neg h2]
  split <;> rfl

theorem checkDigits4Prev_none {tokens : List String} {i : Nat}
    (H : ∀ t ∈ tokens, ∀ v ∈ generateVariants t 20, startsWithKA v = false)
    (hi : i < tokens.length) : checkDigits4Prev tokens i = none := by
  unfold checkDigits4Prev
  dsimp only
  have h1 : ¬(1 ≤ i ∧ reLetters (tokens.getD (i - 1) "") = true ∧ 2 ≤ i ∧
      reDistrict (tokens.getD (i - 2) "") = true) := by
    rintro ⟨hi1, _, hi2, hd⟩
    rw [noka_reDistrict_false H (getD_mem (show i - 2 < tokens.length by omega))] at hd
    simp at hd
  have h2 : ¬(3 ≤ i ∧ tokens.getD (i - 3) "" = "KA" ∧
      reDigits2 (tokens.getD (i - 2) "") = true ∧
      reLetters (tokens.getD (i - 1) "") = true) := by
    rintro ⟨hi3, hKA, _⟩
    exact noka_ne_KA H (getD_mem (show i - 3 < tokens.length by omega)) hKA
  rw [if_neg h1, if_neg h2]
  split <;> rfl

/-- C3: a token sequence with no "KA"-rooted fragment — no confusion
variant of any token (each token being among its own variants) begins
with the literal characters `K` then `A` — makes the reconstructor
return "not found". -/
theorem no_ka_fragment_not_found (tokens : List String)
    (H : ∀ t ∈ tokens, ∀ v ∈ generateVariants t 20, startsWithKA v = false) :
    findKAVehicleInTokens tokens = none := by
  unfold findKAVehicleInTokens
  rw [List.findSome?_eq_none_iff]
  intro i hi
  have hi' : i < tokens.length := List.mem_range.mp hi
  unfold checkIndex
  rw [checkDirect_none H hi', checkDistrict_none H hi', checkKAFollowed_none H hi',
    checkDistrictLetters_none H hi', checkSerialPrev_none H hi',
    checkDigits4Prev_none H hi']
  rfl

theorem no_ka_fragment_not_found_witness :
    (∀ t ∈ ["HELLO", "1234"], ∀ v ∈ generateVariants t 20, startsWithKA v = false) ∧
      findKAVehicleInTokens ["HELLO", "1234"] = none :=
  ⟨by decide, no_ka_fragment_not_found ["HELLO", "1234"] (by decide)⟩

theorem variantPlate_pattern {c : String} {lim : Nat} {ok : String}
    (h : variantPlate c lim = some ok) : kaVehiclePattern ok = true := by
  unfold variantPlate at h
  exact List.find?_some h

theorem plate_of_map {c : String} {lim : Nat} {idxs : List Nat} {m : PlateMatch}
    (h : (variantPlate c lim).map (fun ok => PlateMatch.mk ok idxs) = some m) :
    kaVehiclePattern m.plate = true := by
  rcases Option.map_eq_some'.mp h with ⟨ok, hfind, hm⟩
  rw [← hm]
  exact variantPlate_pattern hfind

theorem firstSome_eq_some {a b : Option PlateMatch} {m : PlateMatch}
    (h : firstSome a b = some m) : a = some m ∨ (a = none ∧ b = some m) := by
  unfold firstSome at h
  rcases a with _ | x
  · exact Or.inr ⟨rfl, h⟩
  · exact Or.inl h

theorem checkDirect_pattern {tokens : List String} {i : Nat} {m : PlateMatch}
    (h : checkDirect tokens i = some m) : kaVehiclePattern m.plate = true := by
  unfold checkDirect at h
  dsimp only at h
  split at h
  next htry =>
    injection h with h'
    rw [← h']
    dsimp only
    rcases hfind : variantPlate (tokens.getD i "") 20 with _ | v
    · unfold variantPlate at hfind
      have hall := List.find?_eq_none.mp hfind
      have hany : (generateVariants (tokens.getD i "") 20).any
          (fun v => kaVehiclePattern v) = false := by
        rw [List.any_eq_false]
        exact fun x hx => hall x hx
      unfold tryPlateMatchWithVariants at htry
      rw [hany, Bool.or_false] at htry
      simpa using htry
    · have hp := variantPlate_pattern hfind
      unfold variantPlate at hfind
      simp [variantPlate, hfind, hp]
  next => cases h

theorem checkDistrict_pattern {tokens : List String} {i : Nat} {m : PlateMatch}
    (h : checkDistrict tokens i = some m) : kaVehiclePattern m.plate = true := by
  unfold checkDistrict at h
  dsimp only at h
  split at h
  · obtain ⟨j, hj, hsome⟩ := List.exists_of_findSome?_eq_some h
    rcases firstSome_eq_some hsome with h1 | ⟨_, h2⟩
    · split at h1
      · exact plate_of_map h1
      · cases h1
    · split at h2
      · exact plate_of_map h2
      · cases h2
  · cases h

theorem checkKAFollowed_pattern {tokens : List String} {i : Nat} {m : PlateMatch}
    (h : checkKAFollowed tokens i = some m) : kaVehiclePattern m.plate = true := by
  unfold checkKAFollowed at h
  dsimp only at h
  split at h
  · split at h
    · obtain ⟨j, hj, hsome⟩ := List.exists_of_findSome?_eq_some h
      rcases firstSome_eq_some hsome with h1 | ⟨_, h2⟩
      · split at h1
        · exact plate_of_map h1
        · cases h1
      · split at h2
        · exact plate_of_map h2
        · cases h2
    · cases h
  · cases h

theorem checkDistrictLetters_pattern {tokens : List String} {i : Nat} {m : PlateMatch}
    (h : checkDistrictLetters tokens i = some m) : kaVehiclePattern m.plate = true := by
  unfold checkDistrictLetters at h
  dsimp only at h
  split at h
  · exact plate_of_map h
  · cases h

theorem checkSerialPrev_pattern {tokens : List String} {i : Nat} {m : PlateMatch}
    (h : checkSerialPrev tokens i = some m) : kaVehiclePattern m.plate = true := by
  unfold checkSerialPrev at h
  dsimp only at h
  split at h
  · rcases firstSome_eq_some h with h1 | ⟨_, h2⟩
    · split at h1
      · exact plate_of_map h1
      · cases h1
    · split at h2
      · exact plate_of_map h2
      · cases h2
  · cases h

theorem checkDigits4Prev_pattern {tokens : List String} {i : Nat} {m : PlateMatch}
    (h : checkDigits4Prev tokens i = some m) : kaVehiclePattern m.plate = true := by
  unfold checkDigits4Prev at h
  dsimp only at h
  split at h
  · rcases firstSome_eq_some h with h1 | ⟨_, h2⟩
    · split at h1
      · exact plate_of_map h1
      · cases h1
    · split at h2
      · exact plate_of_map h2
      · cases h2
  · cases h

/-- C10: whenever the reconstructor returns a match, the returned plate
string itself satisfies the anchored grammar `^KA\d{2}[A-Z]{1,2}\d{4}$`:
every branch returns the grammar-satisfying confusion variant rather than
the raw assembled text. -/
theorem found_plate_matches_grammar (tokens : List String) (m : PlateMatch)
    (h : findKAVehicleInTokens tokens = some m) : kaVehiclePattern m.plate = true := by
  unfold findKAVehicleInTokens at h
  obtain ⟨i, hi, hsome⟩ := List.exists_of_findSome?_eq_some h
  unfold checkIndex at hsome
  rcases firstSome_eq_some hsome with h1 | ⟨_, hsome⟩
  · exact checkDirect_pattern h1
  rcases firstSome_eq_some hsome with h2 | ⟨_, hsome⟩
  · exact checkDistrict_pattern h2
  rcases firstSome_eq_some hsome with h3 | ⟨_, hsome⟩
  · exact checkKAFollowed_pattern h3
  rcases firstSome_eq_some hsome with h4 | ⟨_, hsome⟩
  · exact checkDistrictLetters_pattern h4
  rcases firstSome_eq_some hsome with h5 | ⟨_, hsome⟩
  · exact checkSerialPrev_pattern h5
  exact checkDigits4Prev_pattern hsome

theorem found_plate_matches_grammar_witness :
    findKAVehicleInTokens ["KA51A1234"] = some ⟨"KA51A1234", [0]⟩ ∧
      kaVehiclePattern (PlateMatch.mk "KA51A1234" [0]).plate = true :=
  ⟨by decide,
   found_plate_matches_grammar ["KA51A1234"] ⟨"KA51A1234", [0]⟩ (by decide)⟩

theorem preLoop_trace_length (enc : Nat → Nat → ℚ → Nat) (origW origH : Nat) :
    ∀ (fuel attempt : Nat) (scale quality : ℚ) (best : Option (Blob × ℚ))
      (lastBlob : Option Blob) (trace : List Blob),
      ((preLoop enc origW origH fuel attempt scale quality best lastBlob trace).1).length ≤
        trace.length + fuel := by
  intro fuel
  induction fuel with
  | zero =>
    intro attempt scale quality best lastBlob trace
    simp [preLoop]
  | succ n ih =>
    intro attempt scale quality best lastBlob trace
    simp only [preLoop]
    repeat' split
    all_goals
      first
        | (simp only [List.length_append, List.length_singleton]; omega)
        | exact le_trans (ih _ _ _ _ _ _)
            (by simp only [List.length_append, List.length_singleton]; omega)

/-- C5: the compression controller's render-encode loop is bounded: for
every encoder size function and every source raster, the attempt trace has
length at most the fixed bound `maxAttempts = 8`. -/
theorem compression_attempts_bounded (enc : Nat → Nat → ℚ → Nat) (origW origH : Nat) :
    ((preprocessForOCR enc origW origH).1).length ≤ 8 := by
  have h := preLoop_trace_length enc origW origH 8 0 (initialScale origW origH)
    (23 / 25) none none []
  simpa [preprocessForOCR] using h

theorem attemptScore_pos (origW origH : Nat) (b : Blob) (hq : 0 < b.q) :
    0 < attemptScore origW origH b := by
  unfold attemptScore
  have h1 : (0 : ℚ) ≤ max 0 (1 - (b.size : ℚ) / (MAX_FILE_SIZE : ℚ)) * (2 / 5) :=
    mul_nonneg (le_max_left 0 _) (by norm_num)
  have h2 : (0 : ℚ) ≤ min 1 ((b.w * b.h : ℚ) / ((origW * origH : Nat) : ℚ)) * (2 / 5) := by
    refine mul_nonneg (le_min (by norm_num) (div_nonneg ?_ ?_)) (by norm_num)
    · positivity
    · positivity
  have h3 : 0 < b.q * (1 / 5) := by positivity
  linarith

theorem preLoop_succ_stop (enc : Nat → Nat → ℚ → Nat) (origW origH fuel attempt : Nat)
    (scale quality : ℚ) (best : Option (Blob × ℚ)) (lastBlob : Option Blob)
    (trace : List Blob)
    (h : (mkBlob enc origW origH scale quality).size ≤ MAX_FILE_SIZE) :
    preLoop enc origW origH (fuel + 1) attempt scale quality best lastBlob trace =
      (trace ++ [mkBlob enc origW origH scale quality],
        some (mkBlob enc origW origH scale quality),
        if bestScoreOf best < attemptScore origW origH (mkBlob enc origW origH scale quality)
        then some (mkBlob enc origW origH scale quality,
          attemptScore origW origH (mkBlob enc origW origH scale quality))
        else best) := by
  simp only [preLoop]
  rw [if_pos h]

/-- C6: if the first attempt's encoded size already meets the byte budget,
the controller stops after that single attempt and returns the first
attempt's candidate. -/
theorem first_attempt_under_budget (enc : Nat → Nat → ℚ → Nat) (origW origH : Nat)
    (h : (mkBlob enc origW origH (initialScale origW origH) (23 / 25)).size ≤
      MAX_FILE_SIZE) :
    (preprocessForOCR enc origW origH).1 =
        [mkBlob enc origW origH (initialScale origW origH) (23 / 25)] ∧
      finalBlob (preprocessForOCR enc origW origH) =
        some (mkBlob enc origW origH (initialScale origW origH) (23 / 25)) := by
  have hq : (0 : ℚ) < (mkBlob enc origW origH (initialScale origW origH) (23 / 25)).q := by
    norm_num [mkBlob]
  have hpos : bestScoreOf none <
      attemptScore origW origH (mkBlob enc origW origH (initialScale origW origH) (23 / 25)) := by
    simpa [bestScoreOf] using attemptScore_pos origW origH _ hq
  unfold preprocessForOCR
  rw [show (8 : Nat) = 7 + 1 from rfl,
    preLoop_succ_stop enc origW origH 7 0 (initialScale origW origH) (23 / 25) none none [] h,
    if_pos hpos]
  exact ⟨by simp, by simp [finalBlob]⟩

theorem jsRound_ge {x : ℚ} {n : ℤ} (h : (n : ℚ) ≤ x) : n ≤ jsRound x := by
  unfold jsRound
  rw [Int.le_floor]
  linarith

theorem targetDim_ge {orig : Nat} {scale : ℚ}
    (h : 600 ≤ jsRound ((orig : ℚ) * scale)) : 600 ≤ targetDim orig scale := by
  unfold targetDim
  have h0 : (600 : Nat) ≤ (jsRound ((orig : ℚ) * scale)).toNat := by omega
  exact le_trans h0 (Nat.le_max_left _ _)

theorem initialScale_nonneg (origW origH : Nat) : 0 ≤ initialScale origW origH := by
  unfold initialScale
  dsimp only
  split
  · unfold MIN_DIMENSION
    positivity
  · have h1 : (0 : ℚ) ≤ MAX_DIMENSION / (origW : ℚ) := by
      unfold MAX_DIMENSION
      positivity
    have h2 : (0 : ℚ) ≤ MAX_DIMENSION / (origH : ℚ) := by
      unfold MAX_DIMENSION
      positivity
    exact le_min (le_min h1 h2) (by norm_num)

theorem initialScale_short (origW origH : Nat) (hW : 1 ≤ origW) (hH : 1 ≤ origH) :
    600 ≤ ((min origW origH : Nat) : ℚ) * initialScale origW origH := by
  have hm0 : ((min origW origH : Nat) : ℚ) ≠ 0 := by
    have : (0 : ℚ) < ((min origW origH : Nat) : ℚ) := by
      exact_mod_cast Nat.lt_of_lt_of_le Nat.zero_lt_one (le_min hW hH)
    exact ne_of_gt this
  unfold initialScale
  dsimp only
  split
  · rw [mul_comm, div_mul_cancel₀ _ hm0]
    unfold MIN_DIMENSION
    norm_num
  · next hc =>
      push_neg at hc
      unfold MIN_DIMENSION at hc
      rw [mul_comm]
      exact hc

theorem dimInv_initial (origW origH : Nat) (hW : 1 ≤ origW) (hH : 1 ≤ origH) :
    dimInv origW origH (initialScale origW origH) := by
  have hs0 := initialScale_nonneg origW origH
  have hms := initialScale_short origW origH hW hH
  constructor
  · apply jsRound_ge
    have h1 : ((min origW origH : Nat) : ℚ) ≤ (origW : ℚ) := by
      exact_mod_cast Nat.min_le_left origW origH
    have h2 : ((min origW origH : Nat) : ℚ) * initialScale origW origH ≤
        (origW : ℚ) * initialScale origW origH :=
      mul_le_mul_of_nonneg_right h1 hs0
    push_cast
    linarith
  · apply jsRound_ge
    have h1 : ((min origW origH : Nat) : ℚ) ≤ (origH : ℚ) := by
      exact_mod_cast Nat.min_le_right origW origH
    have h2 : ((min origW origH : Nat) : ℚ) * initialScale origW origH ≤
        (origH : ℚ) * initialScale origW origH :=
      mul_le_mul_of_nonneg_right h1 hs0
    push_cast
    linarith

theorem preLoop_dims (enc : Nat → Nat → ℚ → Nat) (origW origH : Nat) :
    ∀ (fuel attempt : Nat) (scale quality : ℚ) (best : Option (Blob × ℚ))
      (lastBlob : Option Blob) (trace : List Blob),
      dimInv origW origH scale →
      (∀ b ∈ trace, 600 ≤ min b.w b.h) →
      ∀ b ∈ (preLoop enc origW origH fuel attempt scale quality best lastBlob trace).1,
        600 ≤ min b.w b.h := by
  intro fuel
  induction fuel with
  | zero =>
    intro attempt scale quality best lastBlob trace hinv htrace
    simpa [preLoop] using htrace
  | succ n ih =>
    intro attempt scale quality best lastBlob trace hinv htrace
    have hblob : 600 ≤ min (mkBlob enc origW origH scale quality).w
        (mkBlob enc origW origH scale quality).h := by
      unfold mkBlob
      exact le_min (targetDim_ge hinv.1) (targetDim_ge hinv.2)
    have htrace' : ∀ b ∈ trace ++ [mkBlob enc origW origH scale quality],
        600 ≤ min b.w b.h := by
      intro b hb
      rcases List.mem_append.mp hb with hb | hb
      · exact htrace b hb
      · rw [List.mem_singleton.mp hb]
        exact hblob
    simp only [preLoop]
    split
    · exact htrace'
    · split
      · exact ih _ _ _ _ _ _ hinv htrace'
      · split
        · exact ih _ _ _ _ _ _ hinv htrace'
        · split
          · split
            · next hguard =>
                have hinv' : dimInv origW origH (scale * (19 / 20)) :=
                  ⟨(le_min_iff.mp hguard).1, (le_min_iff.mp hguard).2⟩
                exact ih _ _ _ _ _ _ hinv' htrace'
            · split
              · exact ih _ _ _ _ _ _ hinv htrace'
              · exact htrace'
          · exact ih _ _ _ _ _ _ hinv htrace'

/-- C4: for any encoder behaviour and any source raster at least 1×1, no
attempt of the compression loop renders below `MIN_DIMENSION = 600` on
the short side: the initial scale is pushed up to the 600 floor and every
scale reduction is rejected when its rounded short side would drop under
600.  (This is unconditional, so in particular it holds when the source's
short side is at least 600.) -/
theorem preprocess_min_dimension (enc : Nat → Nat → ℚ → Nat) (origW origH : Nat)
    (hW : 1 ≤ origW) (hH : 1 ≤ origH) :
    ∀ b ∈ (preprocessForOCR enc origW origH).1, 600 ≤ min b.w b.h := by
  unfold preprocessForOCR
  exact preLoop_dims enc origW origH 8 0 (initialScale origW origH) (23 / 25) none none []
    (dimInv_initial origW origH hW hH) (by simp)

theorem preprocess_min_dimension_witness :
    1 ≤ 1000 ∧ 1 ≤ 1000 ∧
      ∀ b ∈ (preprocessForOCR encZero 1000 1000).1, 600 ≤ min b.w b.h :=
  ⟨by decide, by decide,
   preprocess_min_dimension encZero 1000 1000 (by decide) (by decide)⟩

theorem first_attempt_under_budget_witness :
    (mkBlob encZero 100 100 (initialScale 100 100) (23 / 25)).size ≤ MAX_FILE_SIZE ∧
      ((preprocessForOCR encZero 100 100).1 =
          [mkBlob encZero 100 100 (initialScale 100 100) (23 / 25)] ∧
        finalBlob (preprocessForOCR encZero 100 100) =
          some (mkBlob encZero 100 100 (initialScale 100 100) (23 / 25))) :=
  ⟨by decide, first_attempt_under_budget encZero 100 100 (by decide)⟩

/-- C9: the filter pipeline is deterministic: two runs of `renderToCanvas`
on the same host draw function, the same input image, the same target
dimensions and the same filter options produce byte-for-byte identical
pixel buffers. -/
theorem renderToCanvas_deterministic {Img : Type}
    (hostDraw : Img → Nat → Nat → List String → List Nat)
    (img1 img2 : Img) (w1 h1 w2 h2 : Nat) (o1 o2 : RenderOpts)
    (hi : img1 = img2) (hw : w1 = w2) (hh : h1 = h2) (ho : o1 = o2) :
    renderToCanvas hostDraw img1 w1 h1 o1 = renderToCanvas hostDraw img2 w2 h2 o2 := by
  subst hi hw hh ho
  rfl

theorem renderToCanvas_deterministic_witness :
    () = () ∧ 3 = 3 ∧ sampleOpts = sampleOpts ∧
      renderToCanvas hostDrawConst () 3 3 sampleOpts =
        renderToCanvas hostDrawConst () 3 3 sampleOpts :=
  ⟨rfl, rfl, rfl,
   renderToCanvas_deterministic hostDrawConst () () 3 3 3 3 sampleOpts sampleOpts
     rfl rfl rfl rfl⟩

end OCRView
